import Mathlib

/-!
Verification of the record-reconciliation logic of the hub_member_hq
repository (scripts/mobilize_sync.py, scripts/sheets_sync.py,
scripts/interest_form_data_entry_sheet_script.py,
scripts/new_national_contacts_sync.py).

The scripts are Python; we embed the functions the claims are about.
Spreadsheet cells and Python list items are modelled by `Value`
(a string cell, an integer cell, or Python's None); rows are
`List Value` or, for the two sheet scripts whose rows only ever carry
strings, `List String`.  Python dictionaries keyed by email are
modelled as association lists in insertion order, which is exactly the
iteration order of a Python dict.  Fallible operations (list index out
of range, `len` of a non-string, comparing None with an int, `del` of a
missing key) are modelled in `Except Unit`: a `.error ()` corresponds
to the Python exception propagating out of the function.  The one
abstraction: `datetime.datetime.now(timezone.utc) - datetime.strptime(date_joined...)`
is modelled by an oracle `tsjOf : String → Int` giving the elapsed time
in microseconds (the resolution of Python's timedelta); the status
logic only consumes that difference.
-/

/-- A Python value that can sit in a spreadsheet row / Python list:
a string cell, an integer (as produced by the Redshift query), or None. -/
inductive Value where
  | vStr : String → Value
  | vInt : Int → Value
  | vNone : Value
deriving Repr, DecidableEq

/-- One deduplicated Mobilize contact as returned by the Redshift query in
`get_mobilize_data` (mobilize_sync.py lines 195-258): name and contact
fields are text, `total_signups`/`total_attendances` are integers, and the
two `days_since_*` fields are `datediff` results that are NULL (None) when
the underlying dates are NULL. -/
structure MobRow where
  first_name : String
  last_name : String
  email : String
  phone : String
  date_joined : String
  total_signups : Int
  total_attendances : Int
  first_signup : String
  first_attendance : String
  days_since_last_signup : Option Int
  days_since_last_attendance : Option Int
deriving Repr, DecidableEq

/-- Python dict lookup on an association list: first (and, given the
insert discipline, only) binding of the key. -/
def dictLookup {α : Type} (d : List (String × α)) (k : String) : Option α :=
  (d.find? (fun p => decide (p.1 = k))).map (fun p => p.2)

/-- Python `d[k] = v`: overwrite in place if the key exists (keeping its
insertion position), otherwise append — exactly a CPython dict. -/
def dictInsert {α : Type} (k : String) (v : α) (d : List (String × α)) :
    List (String × α) :=
  if (d.find? (fun p => decide (p.1 = k))).isSome then
    d.map (fun p => if p.1 = k then (k, v) else p)
  else d ++ [(k, v)]

/-- Python `del d[k]` after a successful lookup: drop the binding. -/
def dictErase {α : Type} (d : List (String × α)) (k : String) :
    List (String × α) :=
  d.filter (fun p => decide (p.1 ≠ k))

/-- The dict comprehension of `get_mobilize_data` line 265:
`\x7bi['email']: i for i in mobilize_data\x7d` — later rows with the same
email overwrite earlier ones (last write wins). -/
def buildDict (rows : List MobRow) : List (String × MobRow) :=
  rows.foldl (fun d r => dictInsert r.email r d) []

/-- Prepend an optional element (used to collect the optional column-R
write of `mark_as_claimed` on each hit). -/
def consOptNat (mc : Option Nat) (cs : List Nat) : List Nat :=
  match mc with
  | some c => c :: cs
  | none => cs

/-- Python `xs[i]` on a list: the element, or an IndexError. -/
def pyGet {α : Type} (xs : List α) (i : Nat) : Except Unit α :=
  match xs[i]? with
  | some v => .ok v
  | none => .error ()

/-- Python `xs[i] = v` on a list: in-place update, or an IndexError. -/
def pySet {α : Type} (xs : List α) (i : Nat) (v : α) : Except Unit (List α) :=
  if i < xs.length then .ok (xs.set i v) else .error ()

/-- Python `len` of a cell value: defined for strings, a TypeError
otherwise (the cells it is applied to come from the sheet as strings). -/
def pyLenV : Value → Except Unit Nat
  | .vStr s => .ok s.length
  | _ => .error ()

/-- Python `a and b` with a decidable left operand: `b` is evaluated
(and may raise) only when `a` is true. -/
def pyAnd (p : Prop) [Decidable p] (rhs : Except Unit Bool) : Except Unit Bool :=
  if p then rhs else .ok false

/-- Python `x < t` where `x` may be None: comparing None with an int is
a TypeError. -/
def pyLtOpt (x : Option Int) (t : Int) : Except Unit Bool :=
  match x with
  | some v => .ok (decide (v < t))
  | none => .error ()

/-- Python `x >= t` where `x` may be None: comparing None with an int is
a TypeError. -/
def pyGeOpt (x : Option Int) (t : Int) : Except Unit Bool :=
  match x with
  | some v => .ok (decide (t ≤ v))
  | none => .error ()

/-- `datetime.timedelta(days=7)` in microseconds. -/
def sevendays : Int := 7 * 86400000000

/-- `datetime.timedelta(days=60)` in microseconds. -/
def sixtydays : Int := 60 * 86400000000

/-- The if/elif chain of `assign_status` (mobilize_sync.py lines 297-309),
after the two inputs taken from the mobilize dict have been resolved:
`tsj` is `now - date_joined` in microseconds, `ts` is `total_signups`,
`dsls` is `days_since_last_signup` (None when the contact was not in the
mobilize dict, or when the query returned NULL).  `days_since_last_signup`
and the thresholds are compared as plain ints; `and` short-circuits, so
None is only compared (raising TypeError) when `ts > et` holds. -/
def assignStatusCore (tsj ts : Int) (dsls : Option Int) (et it : Int) :
    Except Unit String :=
  if tsj ≤ sevendays then .ok "HOT LEAD"
  else if sevendays < tsj ∧ tsj ≤ sixtydays then .ok "Prospective/New Member"
  else
    match pyAnd (et < ts) (pyLtOpt dsls it) with
    | .error e => .error e
    | .ok true => .ok "Active Member"
    | .ok false =>
      match pyAnd (et < ts) (pyGeOpt dsls it) with
      | .error e => .error e
      | .ok true => .ok "Inactive Member"
      | .ok false =>
        if ts ≤ et ∧ sixtydays < tsj then .ok "Never got involved"
        else .ok "error (plz contact hub-hq-help@sunrisemovement.org)"

/-- `assign_status` less the row plumbing: the try/except of lines 284-290
resolves `total_signups` and `days_since_last_signup` from the mobilize
dict, defaulting to 0 and None when the email has no entry. -/
def assign_status (mobilizeDict : List (String × MobRow)) (hqEmail : String)
    (tsj et it : Int) : Except Unit String :=
  match dictLookup mobilizeDict hqEmail with
  | some m => assignStatusCore tsj m.total_signups m.days_since_last_signup et it
  | none => assignStatusCore tsj 0 none et it

/-- The six membership statuses named by the specification. -/
inductive SpecStatus where
  | hotLead
  | prospectiveNewMember
  | activeMember
  | inactiveMember
  | neverGotInvolved
  | errorState
deriving Repr, DecidableEq

/-- The string each spec status is rendered as by the code. -/
def specStatusString : SpecStatus → String
  | .hotLead => "HOT LEAD"
  | .prospectiveNewMember => "Prospective/New Member"
  | .activeMember => "Active Member"
  | .inactiveMember => "Inactive Member"
  | .neverGotInvolved => "Never got involved"
  | .errorState => "error (plz contact hub-hq-help@sunrisemovement.org)"

/-- Modelled from the spec's ordered branch list (spec.md "Status
derivation"): first match wins; age is the elapsed time since joined,
compared against 7 and 60 days; signups and the two thresholds are ints. -/
def specAssignStatus (tsj ts dsls et it : Int) : SpecStatus :=
  if tsj ≤ sevendays then .hotLead
  else if sevendays < tsj ∧ tsj ≤ sixtydays then .prospectiveNewMember
  else if et < ts ∧ dsls < it then .activeMember
  else if et < ts ∧ it ≤ dsls then .inactiveMember
  else if ts ≤ et ∧ sixtydays < tsj then .neverGotInvolved
  else .errorState

/-- The guard of each branch of the `assign_status` if/elif chain, in
source order (mobilize_sync.py lines 297-307); index 5 is the bare `else`. -/
def statusGuard (tsj ts d et it : Int) (i : Fin 6) : Bool :=
  if i.val = 0 then decide (tsj ≤ sevendays)
  else if i.val = 1 then decide (sevendays < tsj ∧ tsj ≤ sixtydays)
  else if i.val = 2 then decide (et < ts ∧ d < it)
  else if i.val = 3 then decide (et < ts ∧ it ≤ d)
  else if i.val = 4 then decide (ts ≤ et ∧ sixtydays < tsj)
  else true

/-- Branch `i` of a first-match if/elif chain fires when its guard holds
and no earlier guard does. -/
def branchFires (g : Fin 6 → Bool) (i : Fin 6) : Prop :=
  g i = true ∧ ∀ j : Fin 6, j < i → g j = false

/-- The status string each branch of `assign_status` returns, in source
order; index 5 is the `else` fallback string. -/
def branchResult (i : Fin 6) : String :=
  if i.val = 0 then "HOT LEAD"
  else if i.val = 1 then "Prospective/New Member"
  else if i.val = 2 then "Active Member"
  else if i.val = 3 then "Inactive Member"
  else if i.val = 4 then "Never got involved"
  else "error (plz contact hub-hq-help@sunrisemovement.org)"

/-- Python `row[i]` inside the merge loops, on a `Value` row. -/
def getCell (row : List Value) (i : Nat) : Except Unit Value :=
  match row[i]? with
  | some v => .ok v
  | none => .error ()

/-- Looking a Hub HQ cell up in the mobilize dict: the dict is keyed by
the email strings of the query rows, so only an equal string cell can
match; an int or None cell never equals a string key. -/
def lookupValue (d : List (String × MobRow)) (v : Value) : Option MobRow :=
  match v with
  | .vStr s => dictLookup d s
  | _ => none

/-- Python `del mobilize_dict[hq_email]` with the same key shape. -/
def dictEraseV (d : List (String × MobRow)) (v : Value) : List (String × MobRow) :=
  match v with
  | .vStr s => dictErase d s
  | _ => d

/-- `assign_status` as called by `mobilize_updates`: reads the email
(index 2) and `date_joined` (index 5) cells of the HQ row, turns the
date string into the elapsed time through the clock/parse oracle
`tsjOf`, and runs the threshold chain with the dict entry's metrics
(0 / None when the email has no entry).  A non-string `date_joined`
cell is the Python TypeError raised by slicing/strptime. -/
def assignStatusRow (tsjOf : String → Int) (d : List (String × MobRow))
    (row : List Value) (et it : Int) : Except Unit String := do
  let ev ← getCell row 2
  let dv ← getCell row 5
  let dj ← match dv with
    | .vStr s => Except.ok s
    | _ => Except.error ()
  match lookupValue d ev with
  | some m => assignStatusCore (tsjOf dj) m.total_signups m.days_since_last_signup et it
  | none => assignStatusCore (tsjOf dj) 0 none et it

/-- The six mobilize metric cells written into a matched HQ row by
`mobilize_updates` lines 364-367, in the order of
`hq_columns_list[6:12]` (`update_items`). -/
def updateValues (m : MobRow) : List Value :=
  [Value.vInt m.total_signups, Value.vInt m.total_attendances,
   Value.vStr m.first_signup, Value.vStr m.first_attendance,
   (match m.days_since_last_signup with | some n => Value.vInt n | none => Value.vNone),
   (match m.days_since_last_attendance with | some n => Value.vInt n | none => Value.vNone)]

/-- `mark_as_claimed` (mobilize_sync.py lines 312-329): reads the
`source` (index 16) and `date_claimed` (index 17) cells; when the source
is the national list and `date_claimed` is empty it writes the claim
timestamp into column R of sheet row `idx + offset` (offset 4 in
mobilize_sync, 3 in sheets_sync).  The returned value is the row number
written, or none when no write happens. -/
def markClaimCell (row : List Value) (idx : Nat) (offset : Nat) :
    Except Unit (Option Nat) := do
  let source ← getCell row 16
  let dc ← getCell row 17
  if source = Value.vStr "National Email List" then do
    let n ← pyLenV dc
    if n = 0 then pure (some (idx + offset)) else pure none
  else pure none

/-- The `mark_as_claimed` of sheets_sync.py lines 281-298, whose rows
come straight from the sheet and are strings; it writes cell
`R(idx + 3)`. -/
def markClaimStr (row : List String) (idx : Nat) : Except Unit (Option Nat) := do
  let source ← pyGet row 16
  let dc ← pyGet row 17
  if source = "National Email List" ∧ dc.length = 0 then pure (some (idx + 3))
  else pure none

/-- The per-row loop of `mobilize_updates` (mobilize_sync.py lines
357-384).  On a hit the six metric cells (indices 6-11) are overwritten
with the mobilize values, the status cell (index 4) is recomputed, the
row slice `[4:12]` is emitted as the update, `mark_as_claimed` may
record a column-R write, and the dict entry is consumed.  On a miss the
emitted update is the recomputed status followed by the stored slice
`[5:12]`.  A hit on a row shorter than 12 is the Python IndexError of
the item assignment. -/
def mobilizeLoop (tsjOf : String → Int) (et it : Int) :
    List (List Value) → Nat → List (String × MobRow) →
    Except Unit (List (List Value) × List Nat × List (String × MobRow))
  | [], _, d => .ok ([], [], d)
  | row :: rest, idx, d => do
    let ev ← getCell row 2
    match lookupValue d ev with
    | some m =>
      if 12 ≤ row.length then do
        let row1 := row.take 6 ++ updateValues m ++ row.drop 12
        let st ← assignStatusRow tsjOf d row1 et it
        let row2 := row1.set 4 (Value.vStr st)
        let upd := (row2.drop 4).take 8
        let mc ← markClaimCell row2 idx 4
        let (us, cs, rem) ← mobilizeLoop tsjOf et it rest (idx + 1) (dictEraseV d ev)
        pure (upd :: us, consOptNat mc cs, rem)
      else .error ()
    | none => do
      let st ← assignStatusRow tsjOf d row et it
      let upd := Value.vStr st :: (row.drop 5).take 7
      let (us, cs, rem) ← mobilizeLoop tsjOf et it rest (idx + 1) d
      pure (upd :: us, cs, rem)

/-- A leftover mobilize record as appended to Hub HQ by
`mobilize_updates` lines 393-411: the query fields laid out in
`hq_columns_list` order, the columns mobilize has no data for left as
None, status filled with `HOT LEAD` and source with `Mobilize`. -/
def mobilizeAppendRow (m : MobRow) : List Value :=
  [Value.vStr m.first_name, Value.vStr m.last_name, Value.vStr m.email,
   Value.vStr m.phone, Value.vStr "HOT LEAD", Value.vStr m.date_joined,
   Value.vInt m.total_signups, Value.vInt m.total_attendances,
   Value.vStr m.first_signup, Value.vStr m.first_attendance,
   (match m.days_since_last_signup with | some n => Value.vInt n | none => Value.vNone),
   (match m.days_since_last_attendance with | some n => Value.vInt n | none => Value.vNone),
   Value.vNone, Value.vNone, Value.vNone, Value.vNone, Value.vStr "Mobilize"]

/-- `mobilize_updates` end to end: run the per-row loop over the HQ
rows, then turn the unconsumed dict entries (in dict order) into the
rows appended to Hub HQ.  The first component is the update block
written to `E4:L`, the second the column-R rows written by
`mark_as_claimed`, the third the appended new-contact rows. -/
def mobilize_updates (tsjOf : String → Int) (et it : Int)
    (d : List (String × MobRow)) (hq : List (List Value)) :
    Except Unit (List (List Value) × List Nat × List (List Value)) := do
  let (us, cs, rem) ← mobilizeLoop tsjOf et it hq 0 d
  pure (us, cs, rem.map (fun p => mobilizeAppendRow p.2))

/-- The per-row loop of `hq_updates` in sheets_sync.py (lines 316-331).
On a hit the concatenated display cell (index 7 of the dict row, the
column right after `birthyear`) is emitted as a one-cell update row,
`mark_as_claimed` may record a column-R write, and the dict entry is
consumed.  On a miss the emitted update row is `['']` — the empty
string, regardless of what the destination stores. -/
def sheetsLoop (sd : List (String × List String)) :
    List (List String) → Nat →
    Except Unit (List (List String) × List Nat × List (String × List String))
  | [], _ => .ok ([], [], sd)
  | row :: rest, idx => do
    let hqEmail ← pyGet row 2
    match dictLookup sd hqEmail with
    | some v => do
      let resp ← pyGet v 7
      let mc ← markClaimStr row idx
      let (us, cs, rem) ← sheetsLoop (dictErase sd hqEmail) rest (idx + 1)
      pure ([resp] :: us, consOptNat mc cs, rem)
    | none => do
      let (us, cs, rem) ← sheetsLoop sd rest (idx + 1)
      pure ([""] :: us, cs, rem)

/-- `hq_updates` of sheets_sync.py up to the point where the update block
is pushed: run the loop over the HQ rows (whose first element is the
sheet's header row) and then `del updates[0]` — dropping the update row
the header row produced (an IndexError when there are no rows at all).
Returns the update block, the column-R writes, and the unconsumed
entries that become the append set. -/
def sheets_hq_updates (sd : List (String × List String))
    (hq : List (List String)) :
    Except Unit (List (List String) × List Nat × List (String × List String)) := do
  let (us, cs, rem) ← sheetsLoop sd hq 0
  match us with
  | [] => .error ()
  | _ :: t => pure (t, cs, rem)

/-- The per-row loop of `hq_updates` in
interest_form_data_entry_sheet_script.py (lines 203-213).  On a hit the
concatenated display cell (index 6 of the dict row, the column right
after `Zipcode`) is emitted and the entry consumed; on a miss the
emitted update row repeats the destination's stored cell at index 12
(`hq_columns['last_attendance'] + 2`, the very column the block is
written back to). -/
def interestLoop (sd : List (String × List String)) :
    List (List String) →
    Except Unit (List (List String) × List (String × List String))
  | [] => .ok ([], sd)
  | row :: rest => do
    let hqEmail ← pyGet row 2
    match dictLookup sd hqEmail with
    | some v => do
      let resp ← pyGet v 6
      let (us, rem) ← interestLoop (dictErase sd hqEmail) rest
      pure ([resp] :: us, rem)
    | none => do
      let stored ← pyGet row 12
      let (us, rem) ← interestLoop sd rest
      pure ([stored] :: us, rem)

/-- `hq_updates` of interest_form_data_entry_sheet_script.py up to the
point where the update block is pushed to `M4:M`/`N4:N`: the loop over
the HQ rows (header row first) followed by `del updates[0]`. -/
def interest_hq_updates (sd : List (String × List String))
    (hq : List (List String)) :
    Except Unit (List (List String) × List (String × List String)) := do
  let (us, rem) ← interestLoop sd hq
  match us with
  | [] => .error ()
  | _ :: t => pure (t, rem)

/-- The fixed placeholder substituted when a record carries too much
data to concatenate into one cell (sheets_sync.py lines 254-256,
interest script lines 158-160). -/
def tooMuchMsg : String :=
  "Too much data to display \nUse ctr + f to find persons data\nin Interest Form or Data Entry sheet"

/-- The inner while loop of `construct_update_dictionary` in
sheets_sync.py (lines 264-273) that folds every non-empty column after
the `birthyear` boundary into the display cell at index 7: the first
column is written in place with its (20-character-truncated) header
label, later columns are appended to it, each as `label: value\n`. -/
def sheetsConcatGo (ws : List (List String)) :
    Nat → List String → Nat → Except Unit (List String)
  | 0, r, _ => pure r
  | n + 1, r, i =>
    if i < r.length then do
      let v ← pyGet r i
      if 0 < v.length ∧ i = 7 then do
        let hdr ← pyGet ws 0
        let hl ← pyGet hdr i
        sheetsConcatGo ws n (r.set i (hl.take 20 ++ ": " ++ v ++ "\n")) (i + 1)
      else if 0 < v.length then do
        let hdr ← pyGet ws 0
        let hl ← pyGet hdr i
        let c ← pyGet r 7
        sheetsConcatGo ws n (r.set 7 (c ++ hl.take 20 ++ ": " ++ v ++ "\n")) (i + 1)
      else sheetsConcatGo ws n r (i + 1)
    else pure r

/-- The while loop runs until `i` reaches the (constant — `set` preserves
length) row length, i.e. exactly `r.length - i` iterations; the fuel
argument of `sheetsConcatGo` is that count, and the `i < r.length` guard
is kept in the body. -/
def sheetsConcatLoop (ws : List (List String)) (r : List String) (i : Nat) :
    Except Unit (List String) :=
  sheetsConcatGo ws (r.length - i) r i

/-- The second phase of `construct_update_dictionary` in sheets_sync.py
(lines 249-276) for one stored row: count the populated cells of the
whole row; above 13 write the placeholder into the display cell,
otherwise run the concatenation loop; then truncate the row to the
first 8 columns. -/
def sheetsPhase2 (ws : List (List String)) (r : List String) :
    Except Unit (List String) := do
  let cnt := r.countP (fun s => decide (0 < s.length))
  if 13 < cnt then do
    let r1 ← pySet r 7 tooMuchMsg
    pure (r1.take 8)
  else do
    let r1 ← sheetsConcatLoop ws r 7
    pure (r1.take 8)

/-- The while loop of sheets_sync.py lines 234-239: when an incoming row
repeats an email already in the dict, every non-empty column after the
`birthyear` boundary (index 7 on) is appended to the stored row's same
column as `, value` (provided the email itself is non-empty). -/
def sheetsAggGo (row : List String) (email : String) :
    Nat → List String → Nat → Except Unit (List String)
  | 0, ex, _ => pure ex
  | n + 1, ex, i =>
    if i < row.length then do
      let v ← pyGet row i
      if 0 < v.length ∧ email ≠ "" then do
        let old ← pyGet ex i
        sheetsAggGo row email n (ex.set i (old ++ ", " ++ v)) (i + 1)
      else sheetsAggGo row email n ex (i + 1)
    else pure ex

/-- The while loop over `row`'s indices from `i`; the fuel is the
remaining iteration count `row.length - i` (the scanned row is fixed). -/
def sheetsAggLoop (ex row : List String) (email : String) (i : Nat) :
    Except Unit (List String) :=
  sheetsAggGo row email (row.length - i) ex i

/-- One step of the first phase of `construct_update_dictionary` in
sheets_sync.py (lines 226-243): a row whose email is already a key folds
its trailing columns into the stored row; a new non-empty email inserts
the row; an empty email on a fresh row is skipped. -/
def sheetsPhase1 (sd : List (String × List String)) (row : List String) :
    Except Unit (List (String × List String)) := do
  let email ← pyGet row 3
  match dictLookup sd email with
  | some ex => do
    let ex1 ← sheetsAggLoop ex row email 7
    pure (dictInsert email ex1 sd)
  | none =>
    if email ≠ "" then pure (dictInsert email row sd) else pure sd

/-- `construct_update_dictionary` of sheets_sync.py end to end: drop the
header row, fold the remaining rows into the dict, then rewrite every
entry with the second phase (placeholder or concatenation plus
truncation), preserving dict order. -/
def sheetsConstruct (ws : List (List String)) :
    Except Unit (List (String × List String)) := do
  let sd ← (ws.drop 1).foldlM sheetsPhase1 []
  sd.mapM (fun p => do
    let r ← sheetsPhase2 ws p.2
    pure (p.1, r))

/-- The `signup_columns` dict of
interest_form_data_entry_sheet_script.py line 87: its keys are
capitalised header labels — there is no `zipcode` key. -/
def interestSignupColumns : List (String × Nat) :=
  [("Timestamp", 0), ("First Name", 1), ("Last Name", 2),
   ("Email Address", 3), ("Phone Number", 4), ("Zipcode", 5)]

/-- The aggregation loop of the interest script lines 135-144 as it
would run if `signup_columns['zipcode']` resolved to `z`: Python
iterates `i` over `range(len(row) - z + 1)` and rebinds `i = i + z + 1`,
so the body touches indices `z+1 .. len(row)+1-z+z+1` and the final
iterations index past the end of the row (an IndexError).  This code is
unreachable — see `interestPhase1`. -/
def interestAggGo (row : List String) (stop : Nat) :
    Nat → List String → Nat → Except Unit (List String)
  | 0, ex, _ => pure ex
  | n + 1, ex, j =>
    if j < stop then do
      let v ← pyGet row j
      if v.length = 0 then interestAggGo row stop n ex (j + 1)
      else do
        let old ← pyGet ex j
        interestAggGo row stop n (ex.set j (old ++ ", " ++ v)) (j + 1)
    else pure ex

/-- The `range`-driven loop iterates `stop - j` times; the fuel is that
count. -/
def interestAggLoop (ex row : List String) (j stop : Nat) :
    Except Unit (List String) :=
  interestAggGo row stop (stop - j) ex j

/-- One step of the first phase of `construct_update_dictionary` in the
interest script (lines 130-147).  The duplicate-email branch starts with
the subscript `signup_columns['zipcode']` — but the dict key is
`'Zipcode'`, so the lookup raises KeyError, the surrounding
`except KeyError` handler catches it, and the handler's
`sheet_dict[email] = row` replaces the stored row with the new one.
The intended aggregation loop is therefore dead code. -/
def interestPhase1 (sd : List (String × List String)) (row : List String) :
    Except Unit (List (String × List String)) := do
  let email ← pyGet row 3
  match dictLookup sd email with
  | some ex =>
    match dictLookup interestSignupColumns "zipcode" with
    | some z => do
      let ex1 ← interestAggLoop ex row (z + 1) (row.length - z + 1 + (z + 1))
      pure (dictInsert email ex1 sd)
    | none => pure (dictInsert email row sd)
  | none => pure (dictInsert email row sd)

/-- The inner for loop of the interest script's
`construct_update_dictionary` (lines 173-182), folding the non-empty
columns from index 7 on into the display cell at index 6 as
`label[:20]: value\n`. -/
def interestConcatGo (ws : List (List String)) :
    Nat → List String → Nat → Except Unit (List String)
  | 0, r, _ => pure r
  | n + 1, r, i =>
    if i < r.length then do
      let v ← pyGet r i
      if v.length = 0 then interestConcatGo ws n r (i + 1)
      else do
        let hdr ← pyGet ws 0
        let hl ← pyGet hdr i
        let c ← pyGet r 6
        interestConcatGo ws n (r.set 6 (c ++ hl.take 20 ++ ": " ++ v ++ "\n")) (i + 1)
    else pure r

/-- The for loop of lines 173-182 visits indices `7 .. len(r)-1`; the
fuel is the remaining iteration count (`set` keeps the length fixed). -/
def interestConcatLoop (ws : List (List String)) (r : List String) (i : Nat) :
    Except Unit (List String) :=
  interestConcatGo ws (r.length - i) r i

/-- The second phase of the interest script's
`construct_update_dictionary` (lines 155-184) for one stored row: above
13 populated cells write the placeholder into the display cell (index 6,
right after `Zipcode`); otherwise label the display cell in place (full,
untruncated header label — lines 164-166) and fold the later columns in;
finally truncate the row to the first 7 columns. -/
def interestPhase2 (ws : List (List String)) (r : List String) :
    Except Unit (List String) := do
  let cnt := r.countP (fun s => decide (0 < s.length))
  if 13 < cnt then do
    let r1 ← pySet r 6 tooMuchMsg
    pure (r1.take 7)
  else do
    let v ← pyGet r 6
    let r1 ←
      if 0 < v.length then do
        let hdr ← pyGet ws 0
        let hl ← pyGet hdr 6
        pySet r 6 (hl ++ ": " ++ v ++ "\n")
      else pure r
    let r2 ← interestConcatLoop ws r1 7
    pure (r2.take 7)

/-- `construct_update_dictionary` of the interest script end to end: fold
every row of the given worksheet into the dict (the duplicate branch
replaces — see `interestPhase1`), `del sheet_dict['Email Address']`
(KeyError when no row carried the literal header email), then rewrite
every entry with the second phase. -/
def interestConstruct (ws : List (List String)) :
    Except Unit (List (String × List String)) := do
  let sd ← ws.foldlM interestPhase1 []
  let sd1 ←
    if (dictLookup sd "Email Address").isSome then pure (dictErase sd "Email Address")
    else .error ()
  sd1.mapM (fun p => do
    let r ← interestPhase2 ws p.2
    pure (p.1, r))

/-- Modelled from the spec's concatenation sub-rule, as the closed form
the loop is proved equal to: walk the (header, value) column pairs
beyond the boundary in source (column) order and join the non-empty
values as `label: value` lines. -/
def specJoinPairs (pairs : List (String × String)) : String :=
  pairs.foldr
    (fun p acc => if p.2 = "" then acc else p.1.take 20 ++ ": " ++ p.2 ++ "\n" ++ acc) ""

/-- A concrete 18-column Hub HQ row (columns A-R in `hq_columns` order)
used to evaluate the merge at specific inputs. -/
def sampleHqRow (email status dj source dc : String) : List Value :=
  [Value.vStr "Ada", Value.vStr "Lee", Value.vStr email, Value.vStr "555-0100",
   Value.vStr status, Value.vStr dj, Value.vStr "0", Value.vStr "0",
   Value.vStr "", Value.vStr "", Value.vStr "", Value.vStr "", Value.vStr "",
   Value.vStr "", Value.vStr "02139", Value.vStr "1990", Value.vStr source,
   Value.vStr dc]

/-- A concrete mobilize query row used to evaluate the merge. -/
def sampleMobRow (email : String) : MobRow :=
  { first_name := "Bo", last_name := "Ng", email := email, phone := "555-0101",
    date_joined := "01/02/2024 10:00:00", total_signups := 3,
    total_attendances := 2, first_signup := "2024-01-05",
    first_attendance := "2024-01-05", days_since_last_signup := some 5,
    days_since_last_attendance := some 6 }

/-- A concrete 18-column string HQ row (for the two sheet scripts),
with the stored interest-form display value at index 12 (column M). -/
def sampleSheetRow (email display : String) : List String :=
  ["Ada", "Lee", email, "555-0100", "HOT LEAD", "01/02/2024 10:00:00",
   "0", "0", "", "", "", "", display, "", "02139", "1990", "", ""]

/-- The header row of a small Interest Form worksheet. -/
def interestHeaderRow : List String :=
  ["Timestamp", "First Name", "Last Name", "Email Address", "Phone Number",
   "Zipcode", "Why do you want to join", "Skills"]

/-- A first form submission for `dup@x.com`, carrying data in the first
trailing column. -/
def interestRowA : List String :=
  ["1/1 10:00", "Ann", "A", "dup@x.com", "555-0102", "02139",
   "I love organizing", ""]

/-- A second form submission for the same email, carrying data in the
second trailing column. -/
def interestRowB : List String :=
  ["1/2 11:00", "Ann", "A", "dup@x.com", "555-0102", "02139", "", "Design"]

/-- The update row `mobilize_updates` emits for one destination row `r`:
either the hit shape — metric cells overwritten from a mobilize record
`m` whose email equals the row's email cell, status recomputed, slice
`[4:12]` — or the miss shape — a recomputed status followed by the
stored slice `[5:12]`. -/
def updOfRow (r u : List Value) : Prop :=
  (∃ m : MobRow, ∃ st : String, r[2]? = some (Value.vStr m.email) ∧
    u = (((r.take 6 ++ updateValues m ++ r.drop 12).set 4 (Value.vStr st)).drop 4).take 8) ∨
  (∃ st : String, u = Value.vStr st :: (r.drop 5).take 7)

/-- Recursion worker for `specJoinCols`, on the count of columns left. -/
def specJoinColsGo (hdr r : List String) : Nat → Nat → String
  | 0, _ => ""
  | n + 1, i =>
    if i < r.length then
      (if r.getD i "" = "" then specJoinColsGo hdr r n (i + 1)
       else (hdr.getD i "").take 20 ++ ": " ++ r.getD i "" ++ "\n" ++ specJoinColsGo hdr r n (i + 1))
    else ""

/-- Modelled from the spec's concatenation sub-rule: the non-empty
columns from index `i` on, joined in source (column) order as
`label[:20]: value` lines, newline-terminated. -/
def specJoinCols (hdr r : List String) (i : Nat) : String :=
  specJoinColsGo hdr r (r.length - i) i

theorem assignStatusCore_some_eq (tsj ts d et it : Int) :
    assignStatusCore tsj ts (some d) et it =
      .ok (specStatusString (specAssignStatus tsj ts d et it)) := by
  simp only [assignStatusCore, specAssignStatus, pyAnd, pyLtOpt, pyGeOpt]
  by_cases h1 : tsj ≤ sevendays <;>
  by_cases h2 : sevendays < tsj ∧ tsj ≤ sixtydays <;>
  by_cases h3 : et < ts <;>
  by_cases h4 : d < it <;>
  by_cases h4' : it ≤ d <;>
  by_cases h5 : ts ≤ et ∧ sixtydays < tsj <;>
  simp_all [specStatusString] <;> first
  | omega
  | (split_ifs <;> simp_all <;> omega)
  | (rw [decide_eq_false (by omega : ¬ d < it)]; split_ifs <;> simp_all <;> omega)

theorem assignStatusCore_none_eq (tsj et it : Int) (het : 0 ≤ et) :
    assignStatusCore tsj 0 none et it =
      .ok (if tsj ≤ sevendays then "HOT LEAD"
           else if tsj ≤ sixtydays then "Prospective/New Member"
           else "Never got involved") := by
  by_cases p1 : tsj ≤ sevendays
  · simp [assignStatusCore, p1]
  · by_cases p2 : tsj ≤ sixtydays
    · have hp : sevendays < tsj ∧ tsj ≤ sixtydays := ⟨by omega, p2⟩
      simp [assignStatusCore, p1, p2, hp]
    · have h3 : ¬ (et < 0) := by omega
      have h5 : (0:Int) ≤ et ∧ sixtydays < tsj := ⟨het, by omega⟩
      simp [assignStatusCore, p1, p2, pyAnd, h3, h5]

theorem mem_dictInsert {α : Type} {k : String} {v : α} {d : List (String × α)}
    {p : String × α} (h : p ∈ dictInsert k v d) : p = (k, v) ∨ p ∈ d := by
  unfold dictInsert at h
  split at h
  · rcases List.mem_map.mp h with ⟨q, hq, hfq⟩
    split at hfq
    · exact Or.inl hfq.symm
    · exact Or.inr (hfq ▸ hq)
  · rcases List.mem_append.mp h with h1 | h1
    · exact Or.inr h1
    · exact Or.inl (by simpa using h1)

theorem key_dictInsert {α : Type} (k : String) (v : α) (d : List (String × α)) (s : String) :
    (∃ p ∈ dictInsert k v d, p.1 = s) ↔ s = k ∨ ∃ p ∈ d, p.1 = s := by
  constructor
  · rintro ⟨p, hp, hps⟩
    rcases mem_dictInsert hp with h1 | h1
    · left; rw [h1] at hps; exact hps.symm
    · right; exact ⟨p, h1, hps⟩
  · rintro (rfl | ⟨p, hp, hps⟩)
    · unfold dictInsert
      split
      case isTrue hf =>
        rcases List.find?_isSome.mp hf with ⟨q, hq, hqs⟩
        refine ⟨(s, v), List.mem_map.mpr ⟨q, hq, ?_⟩, rfl⟩
        simp at hqs
        simp [hqs]
      case isFalse hf =>
        exact ⟨(s, v), List.mem_append.mpr (Or.inr (by simp)), rfl⟩
    · unfold dictInsert
      split
      · by_cases hpk : p.1 = k
        · refine ⟨(k, v), List.mem_map.mpr ⟨p, hp, by simp [hpk]⟩, by rw [← hps, hpk]⟩
        · exact ⟨p, List.mem_map.mpr ⟨p, hp, by simp [hpk]⟩, hps⟩
      · exact ⟨p, List.mem_append.mpr (Or.inl hp), hps⟩

theorem dictLookup_isSome_iff {α : Type} (d : List (String × α)) (s : String) :
    (dictLookup d s).isSome ↔ ∃ p ∈ d, p.1 = s := by
  induction d with
  | nil => simp [dictLookup]
  | cons q t ih =>
    by_cases hq : q.1 = s
    · simp [dictLookup, List.find?, hq]
    · simpa [dictLookup, List.find?, hq] using ih

theorem buildDict_key (I : List MobRow) (s : String) :
    (∃ p ∈ buildDict I, p.1 = s) ↔ ∃ m ∈ I, m.email = s := by
  have gen : ∀ (J : List MobRow) (acc : List (String × MobRow)),
      (∃ p ∈ J.foldl (fun d r => dictInsert r.email r d) acc, p.1 = s) ↔
      (∃ p ∈ acc, p.1 = s) ∨ ∃ m ∈ J, m.email = s := by
    intro J
    induction J with
    | nil => simp
    | cons m t ih =>
      intro acc
      rw [List.foldl_cons, ih, key_dictInsert]
      constructor
      · rintro ((rfl | h) | h)
        · exact Or.inr ⟨m, by simp⟩
        · exact Or.inl h
        · rcases h with ⟨m', hm', he⟩
          exact Or.inr ⟨m', by simp [hm'], he⟩
      · rintro (h | ⟨m', hm', he⟩)
        · exact Or.inl (Or.inr h)
        · rcases List.mem_cons.mp hm' with rfl | h2
          · exact Or.inl (Or.inl he.symm)
          · exact Or.inr ⟨m', h2, he⟩
  simpa using gen I []

theorem branchFires_unique (g : Fin 6 → Bool) (i : Fin 6)
    (hi : branchFires g i) : ∀ j : Fin 6, branchFires g j → j = i := by
  intro j hj
  rcases lt_trichotomy j i with h | h | h
  · exact absurd (hi.2 j h) (by simp [hj.1])
  · exact h
  · exact absurd (hj.2 i h) (by simp [hi.1])

/-- C1.  Status derivation: for every record (any elapsed time since
joined, any signup count, any days-since-last-signup value, any
thresholds), `assign_status`'s if/elif chain returns exactly the status
prescribed by the spec's ordered first-match branch list. -/
theorem claim_C1_status_matches_spec (tsj ts d et it : Int) :
    assignStatusCore tsj ts (some d) et it =
      .ok (specStatusString (specAssignStatus tsj ts d et it)) :=
  assignStatusCore_some_eq tsj ts d et it

/-- C2.  Status derivation is total and deterministic: for non-negative
age, signups and thresholds (and an int days-since-last-signup) exactly
one branch of the chain fires, `assign_status` returns that branch's
status, and the firing branch is never the `else`/ERROR_STATE branch —
the error status is unreachable and the function always returns. -/
theorem claim_C2_status_total_no_error (tsj ts d et it : Int)
    (htsj : 0 ≤ tsj) (hts : 0 ≤ ts) (het : 0 ≤ et) (hit : 0 ≤ it) :
    ∃ i : Fin 6, branchFires (statusGuard tsj ts d et it) i ∧
      (∀ j : Fin 6, branchFires (statusGuard tsj ts d et it) j → j = i) ∧
      assignStatusCore tsj ts (some d) et it = .ok (branchResult i) ∧ i ≠ 5 := by
  have v0 : ((0:Fin 6)).val = 0 := rfl
  have v1 : ((1:Fin 6)).val = 1 := rfl
  have v2 : ((2:Fin 6)).val = 2 := rfl
  have v3 : ((3:Fin 6)).val = 3 := rfl
  have v4 : ((4:Fin 6)).val = 4 := rfl
  by_cases p1 : tsj ≤ sevendays
  · have hf : branchFires (statusGuard tsj ts d et it) 0 := by
      refine ⟨by simp [statusGuard, v0, p1], ?_⟩
      intro j hj; fin_cases j <;> simp_all [statusGuard]
    refine ⟨0, hf, branchFires_unique _ _ hf, ?_, by decide⟩
    simp [assignStatusCore, p1, branchResult, v0]
  · by_cases p2 : sevendays < tsj ∧ tsj ≤ sixtydays
    · have hf : branchFires (statusGuard tsj ts d et it) 1 := by
        refine ⟨by simp [statusGuard, v1, p2], ?_⟩
        intro j hj; fin_cases j <;> simp_all [statusGuard, v0]
      refine ⟨1, hf, branchFires_unique _ _ hf, ?_, by decide⟩
      simp [assignStatusCore, p1, p2, branchResult, v1]
    · by_cases p3 : et < ts ∧ d < it
      · have hf : branchFires (statusGuard tsj ts d et it) 2 := by
          refine ⟨by simp [statusGuard, v2, p3], ?_⟩
          intro j hj; fin_cases j <;> simp_all [statusGuard, v0, v1]
        refine ⟨2, hf, branchFires_unique _ _ hf, ?_, by decide⟩
        simp [assignStatusCore, p1, p2, branchResult, v2, pyAnd, pyLtOpt, p3.1, p3.2]
      · by_cases p4 : et < ts ∧ it ≤ d
        · have hf : branchFires (statusGuard tsj ts d et it) 3 := by
            refine ⟨by simp [statusGuard, v3, p4], ?_⟩
            intro j hj; fin_cases j <;> simp_all [statusGuard, v0, v1, v2]
          refine ⟨3, hf, branchFires_unique _ _ hf, ?_, by decide⟩
          have hd : ¬ d < it := by omega
          simp [assignStatusCore, p1, p2, branchResult, v3, pyAnd, pyLtOpt, pyGeOpt,
                p4.1, p4.2, hd]
        · by_cases p5 : ts ≤ et ∧ sixtydays < tsj
          · have hf : branchFires (statusGuard tsj ts d et it) 4 := by
              refine ⟨by simp [statusGuard, v4, p5], ?_⟩
              intro j hj; fin_cases j <;> simp_all [statusGuard, v0, v1, v2, v3]
            refine ⟨4, hf, branchFires_unique _ _ hf, ?_, by decide⟩
            have h3 : ¬ et < ts := by omega
            simp [assignStatusCore, p1, p2, branchResult, v4, pyAnd, pyLtOpt, pyGeOpt, h3, p5]
          · exfalso; omega

theorem claim_C2_status_total_no_error_witness :
    (0:Int) ≤ 100 ∧ (0:Int) ≤ 2 ∧ (0:Int) ≤ 1 ∧ (0:Int) ≤ 30 ∧
    (∃ i : Fin 6, branchFires (statusGuard 100 2 7 1 30) i ∧
      (∀ j : Fin 6, branchFires (statusGuard 100 2 7 1 30) j → j = i) ∧
      assignStatusCore 100 2 (some 7) 1 30 = .ok (branchResult i) ∧ i ≠ 5) :=
  ⟨by norm_num, by norm_num, by norm_num, by norm_num,
   claim_C2_status_total_no_error 100 2 7 1 30 (by norm_num) (by norm_num)
     (by norm_num) (by norm_num)⟩

/-- C9.  A destination record whose email is absent from the mobilize
dict is scored with 0 signups and None days-since-last-signup, so for a
non-negative event threshold its status depends on age alone and is
always HOT LEAD, Prospective/New Member or Never got involved — never
Active Member, Inactive Member or the error status. -/
theorem claim_C9_miss_age_only (d : List (String × MobRow)) (e : String)
    (tsj et it : Int) (hmiss : dictLookup d e = none) (het : 0 ≤ et) :
    assign_status d e tsj et it =
      .ok (if tsj ≤ sevendays then "HOT LEAD"
           else if tsj ≤ sixtydays then "Prospective/New Member"
           else "Never got involved") := by
  simp only [assign_status, hmiss]
  exact assignStatusCore_none_eq tsj et it het

theorem claim_C9_miss_age_only_witness :
    dictLookup (buildDict [sampleMobRow "other@x.com"]) "a@x.com" = none ∧
    (0:Int) ≤ 1 ∧
    assign_status (buildDict [sampleMobRow "other@x.com"]) "a@x.com"
        (100 * 86400000000) 1 30 =
      .ok (if (100 * 86400000000 : Int) ≤ sevendays then "HOT LEAD"
           else if (100 * 86400000000 : Int) ≤ sixtydays then "Prospective/New Member"
           else "Never got involved") :=
  ⟨by decide, by norm_num,
   claim_C9_miss_age_only _ _ _ _ _ (by decide) (by norm_num)⟩

/-- C10.  `date_claimed` is write-once: `mark_as_claimed` (both the
mobilize_sync variant, column R at row idx+4, and the sheets_sync
variant, row idx+3) produces a write exactly when the row's source cell
is `National Email List` and its `date_claimed` cell is the empty
string; for any other source value or a non-empty `date_claimed` it
produces no write, leaving the cell unchanged. -/
theorem claim_C10_date_claimed_write_once (row : List Value) (idx : Nat)
    (sv : Value) (s17 : String)
    (h16 : row[16]? = some sv) (h17 : row[17]? = some (Value.vStr s17))
    (rowS : List String) (idxS : Nat) (t16 t17 : String)
    (g16 : rowS[16]? = some t16) (g17 : rowS[17]? = some t17) :
    markClaimCell row idx 4 =
      .ok (if sv = Value.vStr "National Email List" ∧ s17.length = 0
           then some (idx + 4) else none) ∧
    markClaimStr rowS idxS =
      .ok (if t16 = "National Email List" ∧ t17.length = 0
           then some (idxS + 3) else none) := by
  constructor
  · by_cases c1 : sv = Value.vStr "National Email List" <;>
      by_cases c2 : s17.length = 0 <;>
      simp [markClaimCell, getCell, h16, h17, pyLenV, c1, c2, Bind.bind, Except.bind,
            Pure.pure, Except.pure]
  · by_cases c1 : t16 = "National Email List" <;>
      by_cases c2 : t17.length = 0 <;>
      simp [markClaimStr, pyGet, g16, g17, c1, c2, Bind.bind, Except.bind,
            Pure.pure, Except.pure]

theorem claim_C10_date_claimed_write_once_witness :
    (sampleHqRow "a@x.com" "HOT LEAD" "01/02/2024 10:00:00" "National Email List" "")[16]? =
      some (Value.vStr "National Email List") ∧
    (sampleHqRow "a@x.com" "HOT LEAD" "01/02/2024 10:00:00" "National Email List" "")[17]? =
      some (Value.vStr "") ∧
    (sampleSheetRow "b@x.com" "notes")[16]? = some "" ∧
    (sampleSheetRow "b@x.com" "notes")[17]? = some "" ∧
    markClaimCell (sampleHqRow "a@x.com" "HOT LEAD" "01/02/2024 10:00:00" "National Email List" "") 2 4 =
      .ok (if Value.vStr "National Email List" = Value.vStr "National Email List" ∧
              ("" : String).length = 0 then some (2 + 4) else none) ∧
    markClaimStr (sampleSheetRow "b@x.com" "notes") 5 =
      .ok (if ("" : String) = "National Email List" ∧ ("" : String).length = 0
           then some (5 + 3) else none) := by
  refine ⟨by decide, by decide, by decide, by decide, ?_⟩
  exact claim_C10_date_claimed_write_once _ 2 _ _ (by decide) (by decide) _ 5 _ _
    (by decide) (by decide)

/-- C8.  Matching invariant: a destination email cell matches the
mobilize dict (the lookup the merge branches on) exactly when some
incoming record's email equals it as a plain case-sensitive string — the
dict built by `get_mobilize_data` is keyed by the raw email strings and
the merge looks the raw destination cell up in it, with no case folding,
trimming or other normalization on either side. -/
theorem claim_C8_match_is_string_equality (I : List MobRow) (s : String) :
    (lookupValue (buildDict I) (Value.vStr s)).isSome ↔ ∃ m ∈ I, m.email = s := by
  rw [show lookupValue (buildDict I) (Value.vStr s) = dictLookup (buildDict I) s from rfl,
      dictLookup_isSome_iff, buildDict_key]

theorem assignStatusRow_eq (tsjOf : String → Int) (d : List (String × MobRow))
    (row : List Value) (et it : Int) (s dj : String)
    (h2 : row[2]? = some (Value.vStr s)) (h5 : row[5]? = some (Value.vStr dj)) :
    assignStatusRow tsjOf d row et it = assign_status d s (tsjOf dj) et it := by
  simp only [assignStatusRow, getCell, h2, h5, lookupValue, assign_status,
    Bind.bind, Except.bind]

theorem mobilizeLoop_nil (tsjOf : String → Int) (et it : Int) (idx : Nat)
    (d : List (String × MobRow)) :
    mobilizeLoop tsjOf et it [] idx d = .ok ([], [], d) := rfl

theorem mobilizeLoop_cons_miss (tsjOf : String → Int) (et it : Int)
    (row : List Value) (rest : List (List Value)) (idx : Nat)
    (d : List (String × MobRow)) (s st : String)
    (h2 : row[2]? = some (Value.vStr s)) (hl : dictLookup d s = none)
    (hst : assignStatusRow tsjOf d row et it = .ok st)
    (us : List (List Value)) (cs : List Nat) (rem : List (String × MobRow))
    (hrec : mobilizeLoop tsjOf et it rest (idx + 1) d = .ok (us, cs, rem)) :
    mobilizeLoop tsjOf et it (row :: rest) idx d =
      .ok ((Value.vStr st :: (row.drop 5).take 7) :: us, cs, rem) := by
  simp [mobilizeLoop, getCell, h2, lookupValue, hl, hst, hrec,
    Bind.bind, Except.bind, Pure.pure, Except.pure]

theorem markClaimCell_eq (row : List Value) (idx off : Nat) (sv : Value) (s17 : String)
    (h16 : row[16]? = some sv) (h17 : row[17]? = some (Value.vStr s17)) :
    markClaimCell row idx off =
      .ok (if sv = Value.vStr "National Email List" ∧ s17.length = 0
           then some (idx + off) else none) := by
  by_cases c1 : sv = Value.vStr "National Email List" <;>
    by_cases c2 : s17.length = 0 <;>
    simp [markClaimCell, getCell, h16, h17, pyLenV, c1, c2, Bind.bind, Except.bind,
          Pure.pure, Except.pure]

theorem mobilizeLoop_cons_hit (tsjOf : String → Int) (et it : Int)
    (row : List Value) (rest : List (List Value)) (idx : Nat)
    (d : List (String × MobRow)) (s st : String) (m : MobRow)
    (mc : Option Nat)
    (h2 : row[2]? = some (Value.vStr s)) (hl : dictLookup d s = some m)
    (hlen : 12 ≤ row.length)
    (hst : assignStatusRow tsjOf d (row.take 6 ++ updateValues m ++ row.drop 12) et it = .ok st)
    (hmc : markClaimCell ((row.take 6 ++ updateValues m ++ row.drop 12).set 4 (Value.vStr st)) idx 4 = .ok mc)
    (us : List (List Value)) (cs : List Nat) (rem : List (String × MobRow))
    (hrec : mobilizeLoop tsjOf et it rest (idx + 1) (dictErase d s) = .ok (us, cs, rem)) :
    mobilizeLoop tsjOf et it (row :: rest) idx d =
      .ok (((((row.take 6 ++ updateValues m ++ row.drop 12).set 4 (Value.vStr st)).drop 4).take 8) :: us,
           consOptNat mc cs, rem) := by
  simp only [mobilizeLoop, getCell, h2, lookupValue, hl, dictEraseV,
    Bind.bind, Except.bind, Pure.pure, Except.pure]
  rw [if_pos hlen]
  simp only [hst, hmc, hrec]

theorem row1_getElem_low (row : List Value) (m : MobRow) (i : Nat)
    (hlen : 12 ≤ row.length) (hi : i < 6) :
    (row.take 6 ++ updateValues m ++ row.drop 12)[i]? = row[i]? := by
  rw [List.getElem?_append_left (by simp [List.length_take, updateValues]; omega),
      List.getElem?_append_left (by simp [List.length_take]; omega),
      List.getElem?_take_of_lt hi]

theorem row1_getElem_high (row : List Value) (m : MobRow) (i : Nat)
    (hlen : 12 ≤ row.length) (hi : 12 ≤ i) :
    (row.take 6 ++ updateValues m ++ row.drop 12)[i]? = row[i]? := by
  have hL : (row.take 6 ++ updateValues m).length = 12 := by
    simp [List.length_take, updateValues]; omega
  rw [List.getElem?_append_right (by omega : (row.take 6 ++ updateValues m).length ≤ i),
      hL, List.getElem?_drop]
  congr 1
  omega

theorem row1_length (row : List Value) (m : MobRow) (hlen : 12 ≤ row.length) :
    (row.take 6 ++ updateValues m ++ row.drop 12).length = row.length := by
  simp [List.length_take, updateValues]
  omega

theorem mobilizeLoop_all_miss (tsjOf : String → Int) (et it : Int) (het : 0 ≤ et) :
    ∀ (hq : List (List Value)) (idx : Nat) (d : List (String × MobRow)),
    (∀ row ∈ hq, ∃ s, row[2]? = some (Value.vStr s) ∧ dictLookup d s = none) →
    (∀ row ∈ hq, ∃ t, row[5]? = some (Value.vStr t)) →
    ∃ sts : List String, sts.length = hq.length ∧
      mobilizeLoop tsjOf et it hq idx d =
        .ok (List.zipWith (fun row st => Value.vStr st :: (row.drop 5).take 7) hq sts,
             [], d) ∧
      ∀ k (hk : k < hq.length) (hk2 : k < sts.length),
        assignStatusRow tsjOf d (hq.get ⟨k, hk⟩) et it = .ok (sts.get ⟨k, hk2⟩) := by
  intro hq
  induction hq with
  | nil =>
    intro idx d _ _
    exact ⟨[], rfl, by simp [mobilizeLoop_nil], fun k hk => absurd hk (by simp)⟩
  | cons row rest ih =>
    intro idx d hmiss hdj
    obtain ⟨s, h2, hl⟩ := hmiss row (by simp)
    obtain ⟨dj, h5⟩ := hdj row (by simp)
    have hst : assignStatusRow tsjOf d row et it =
        .ok (if tsjOf dj ≤ sevendays then "HOT LEAD"
             else if tsjOf dj ≤ sixtydays then "Prospective/New Member"
             else "Never got involved") := by
      rw [assignStatusRow_eq tsjOf d row et it s dj h2 h5]
      simp only [assign_status, hl]
      exact assignStatusCore_none_eq _ et it het
    obtain ⟨sts', hlen', hrec, hcorr⟩ :=
      ih (idx + 1) d (fun r hr => hmiss r (by simp [hr])) (fun r hr => hdj r (by simp [hr]))
    refine ⟨(if tsjOf dj ≤ sevendays then "HOT LEAD"
             else if tsjOf dj ≤ sixtydays then "Prospective/New Member"
             else "Never got involved") :: sts', by simp [hlen'], ?_, ?_⟩
    · rw [mobilizeLoop_cons_miss tsjOf et it row rest idx d s _ h2 hl hst _ _ _ hrec]
      simp
    · intro k hk hk2
      cases k with
      | zero => simpa using hst
      | succ k' =>
        simpa using hcorr k' (by simpa using hk) (by simpa using hk2)

theorem buildDict_distinct (I : List MobRow)
    (h : I.Pairwise (fun a b => a.email ≠ b.email)) :
    buildDict I = I.map (fun m => (m.email, m)) := by
  have gen : ∀ (J : List MobRow) (acc : List (String × MobRow)),
      J.Pairwise (fun a b => a.email ≠ b.email) →
      (∀ p ∈ acc, ∀ m ∈ J, p.1 ≠ m.email) →
      J.foldl (fun d r => dictInsert r.email r d) acc = acc ++ J.map (fun m => (m.email, m)) := by
    intro J
    induction J with
    | nil => intro acc _ _; simp
    | cons m t ih =>
      intro acc hpw hacc
      have hnone : acc.find? (fun p => decide (p.1 = m.email)) = none := by
        rw [List.find?_eq_none]
        intro p hp
        simpa using hacc p hp m (by simp)
      have hins : dictInsert m.email m acc = acc ++ [(m.email, m)] := by
        unfold dictInsert
        rw [hnone]
        simp
      rw [List.foldl_cons, hins, ih (acc ++ [(m.email, m)]) (List.Pairwise.of_cons hpw) ?_]
      · simp
      · intro p hp m' hm'
        rcases List.mem_append.mp hp with h1 | h1
        · exact hacc p h1 m' (by simp [hm'])
        · have hpp : p = (m.email, m) := by simpa using h1
          rw [hpp]
          exact (List.pairwise_cons.mp hpw).1 m' hm'
  simpa using gen I [] h (by simp)

/-- C3, counterexample to the claim as stated.  One destination row whose
stored status is `Active Member` (joined 100 days ago), one incoming
mobilize record with a different email: the merge appends the incoming
record with status HOT LEAD, but the update row it emits for the
destination record is NOT the row's stored `E..L` slice — the status
cell has been recomputed to `Never got involved`.  So with disjoint
emails the merge does not leave D untouched: it rewrites every stored
status. -/
theorem claim_C3_counterexample :
    mobilize_updates (fun _ => (8640000000000 : Int)) 1 30
        (buildDict [sampleMobRow "new@x.com"])
        [sampleHqRow "old@x.com" "Active Member" "01/02/2024 10:00:00" "Interest Form" ""] =
      .ok ([Value.vStr "Never got involved" ::
              ((sampleHqRow "old@x.com" "Active Member" "01/02/2024 10:00:00" "Interest Form" "").drop 5).take 7],
           [], [mobilizeAppendRow (sampleMobRow "new@x.com")]) ∧
    Value.vStr "Never got involved" ::
        ((sampleHqRow "old@x.com" "Active Member" "01/02/2024 10:00:00" "Interest Form" "").drop 5).take 7 ≠
      ((sampleHqRow "old@x.com" "Active Member" "01/02/2024 10:00:00" "Interest Form" "").drop 4).take 8 :=
  ⟨rfl, by decide⟩

/-- C3 as amended.  For destination rows D and incoming records I with
disjoint (and within I pairwise distinct) emails, the mobilize merge
consumes nothing, emits for every destination row an update carrying
exactly the row's stored `F..L` cells — only the status cell is
replaced, by the value `assign_status` recomputes — and appends every
record of I unchanged except for status = HOT LEAD and the fixed source
label `Mobilize` (`mobilizeAppendRow`). -/
theorem claim_C3_disjoint_merge (tsjOf : String → Int) (et it : Int)
    (I : List MobRow) (hq : List (List Value))
    (hIdist : I.Pairwise (fun a b => a.email ≠ b.email))
    (hdisj : ∀ row ∈ hq, ∀ m ∈ I, row[2]? ≠ some (Value.vStr m.email))
    (hcells : ∀ row ∈ hq,
      (∃ s, row[2]? = some (Value.vStr s)) ∧ (∃ t, row[5]? = some (Value.vStr t)))
    (het : 0 ≤ et) :
    ∃ sts : List String, sts.length = hq.length ∧
      mobilize_updates tsjOf et it (buildDict I) hq =
        .ok (List.zipWith (fun row st => Value.vStr st :: (row.drop 5).take 7) hq sts,
             [], I.map mobilizeAppendRow) ∧
      ∀ k (hk : k < hq.length) (hk2 : k < sts.length),
        assignStatusRow tsjOf (buildDict I) (hq.get ⟨k, hk⟩) et it = .ok (sts.get ⟨k, hk2⟩) := by
  have hmiss : ∀ row ∈ hq, ∃ s, row[2]? = some (Value.vStr s) ∧
      dictLookup (buildDict I) s = none := by
    intro row hr
    obtain ⟨⟨s, h2⟩, _⟩ := hcells row hr
    refine ⟨s, h2, ?_⟩
    cases hds : dictLookup (buildDict I) s with
    | none => rfl
    | some m0 =>
      exfalso
      have hsome : (dictLookup (buildDict I) s).isSome := by simp [hds]
      obtain ⟨m, hm, hms⟩ := (buildDict_key I s).mp ((dictLookup_isSome_iff _ _).mp hsome)
      exact hdisj row hr m hm (by rw [hms]; exact h2)
  obtain ⟨sts, hlen, hloop, hcorr⟩ :=
    mobilizeLoop_all_miss tsjOf et it het hq 0 (buildDict I) hmiss
      (fun r hr => (hcells r hr).2)
  refine ⟨sts, hlen, ?_, hcorr⟩
  simp only [mobilize_updates, hloop, Bind.bind, Except.bind, Pure.pure, Except.pure]
  rw [buildDict_distinct I hIdist, List.map_map]
  rfl

theorem claim_C3_disjoint_merge_witness :
    ([sampleMobRow "new@x.com"].Pairwise (fun a b => a.email ≠ b.email)) ∧
    (∀ row ∈ [sampleHqRow "a@x.com" "HOT LEAD" "01/02/2024 10:00:00" "Interest Form" ""],
      ∀ m ∈ [sampleMobRow "new@x.com"], row[2]? ≠ some (Value.vStr m.email)) ∧
    (∀ row ∈ [sampleHqRow "a@x.com" "HOT LEAD" "01/02/2024 10:00:00" "Interest Form" ""],
      (∃ s, row[2]? = some (Value.vStr s)) ∧ (∃ t, row[5]? = some (Value.vStr t))) ∧
    (0:Int) ≤ 1 ∧
    (∃ sts : List String,
      sts.length = [sampleHqRow "a@x.com" "HOT LEAD" "01/02/2024 10:00:00" "Interest Form" ""].length ∧
      mobilize_updates (fun _ => (8640000000000 : Int)) 1 30 (buildDict [sampleMobRow "new@x.com"])
          [sampleHqRow "a@x.com" "HOT LEAD" "01/02/2024 10:00:00" "Interest Form" ""] =
        .ok (List.zipWith (fun row st => Value.vStr st :: (row.drop 5).take 7)
               [sampleHqRow "a@x.com" "HOT LEAD" "01/02/2024 10:00:00" "Interest Form" ""] sts,
             [], [sampleMobRow "new@x.com"].map mobilizeAppendRow) ∧
      ∀ k (hk : k < [sampleHqRow "a@x.com" "HOT LEAD" "01/02/2024 10:00:00" "Interest Form" ""].length)
        (hk2 : k < sts.length),
        assignStatusRow (fun _ => (8640000000000 : Int)) (buildDict [sampleMobRow "new@x.com"])
            ([sampleHqRow "a@x.com" "HOT LEAD" "01/02/2024 10:00:00" "Interest Form" ""].get ⟨k, hk⟩)
            1 30 = .ok (sts.get ⟨k, hk2⟩)) :=
  ⟨by simp, by decide,
   by
     intro row hr
     simp only [List.mem_singleton] at hr
     subst hr
     exact ⟨⟨"a@x.com", rfl⟩, ⟨"01/02/2024 10:00:00", rfl⟩⟩,
   by norm_num,
   claim_C3_disjoint_merge (fun _ => (8640000000000 : Int)) 1 30 _ _
     (by simp) (by decide)
     (by
       intro row hr
       simp only [List.mem_singleton] at hr
       subst hr
       exact ⟨⟨"a@x.com", rfl⟩, ⟨"01/02/2024 10:00:00", rfl⟩⟩)
     (by norm_num)⟩

theorem dictLookup_some_mem {α : Type} {d : List (String × α)} {s : String} {m : α}
    (h : dictLookup d s = some m) : (s, m) ∈ d := by
  unfold dictLookup at h
  rcases Option.map_eq_some'.mp h with ⟨q, hq, hqm⟩
  have hqs : q.1 = s := by simpa using List.find?_some hq
  have hmem : q ∈ d := List.mem_of_find?_eq_some hq
  have : q = (s, m) := by
    cases q
    simp_all
  exact this ▸ hmem

theorem mem_dictErase {α : Type} {d : List (String × α)} {k : String} {p : String × α}
    (h : p ∈ dictErase d k) : p ∈ d ∧ p.1 ≠ k := by
  unfold dictErase at h
  have := List.mem_filter.mp h
  exact ⟨this.1, by simpa using this.2⟩

theorem mem_buildDict_pred (C : String × MobRow → Prop) (I : List MobRow)
    (hC : ∀ m ∈ I, C (m.email, m)) : ∀ p ∈ buildDict I, C p := by
  have gen : ∀ (J : List MobRow) (acc : List (String × MobRow)),
      (∀ p ∈ acc, C p) → (∀ m ∈ J, C (m.email, m)) →
      ∀ p ∈ J.foldl (fun d r => dictInsert r.email r d) acc, C p := by
    intro J
    induction J with
    | nil => intro acc hacc _ p hp; exact hacc p hp
    | cons m t ih =>
      intro acc hacc hJ p hp
      refine ih (dictInsert m.email m acc) ?_ (fun m' hm' => hJ m' (by simp [hm'])) p hp
      intro q hq
      rcases mem_dictInsert hq with rfl | h1
      · exact hJ m (by simp)
      · exact hacc q h1
  exact gen I [] (by simp) hC

theorem mobilizeLoop_complete (tsjOf : String → Int) (et it : Int) (het : 0 ≤ et) :
    ∀ (hq : List (List Value)) (idx : Nat) (d : List (String × MobRow)),
    (∀ p ∈ d, p.2.email = p.1 ∧ p.2.days_since_last_signup ≠ none) →
    (∀ row ∈ hq, 18 ≤ row.length ∧ (∃ s, row[2]? = some (Value.vStr s)) ∧
      (∃ t, row[5]? = some (Value.vStr t)) ∧ (∃ u, row[17]? = some (Value.vStr u))) →
    (∀ p ∈ d, 1 ≤ hq.countP (fun row => decide (row[2]? = some (Value.vStr p.1)))) →
    ∃ us cs, mobilizeLoop tsjOf et it hq idx d = .ok (us, cs, []) ∧
      us.length = hq.length ∧
      ∀ k (hk : k < hq.length) (hk2 : k < us.length),
        updOfRow (hq.get ⟨k, hk⟩) (us.get ⟨k, hk2⟩) := by
  intro hq
  induction hq with
  | nil =>
    intro idx d hinv _ hcnt
    cases d with
    | nil => exact ⟨[], [], mobilizeLoop_nil tsjOf et it idx [], rfl, fun k hk => absurd hk (by simp)⟩
    | cons p t => exact absurd (hcnt p (by simp)) (by simp)
  | cons row rest ih =>
    intro idx d hinv hrows hcnt
    obtain ⟨hlen18, ⟨s, h2⟩, ⟨dj, h5⟩, ⟨u17, h17⟩⟩ := hrows row (by simp)
    have hlen12 : 12 ≤ row.length := by omega
    cases hl : dictLookup d s with
    | none =>
      have hst : assignStatusRow tsjOf d row et it =
          .ok (if tsjOf dj ≤ sevendays then "HOT LEAD"
               else if tsjOf dj ≤ sixtydays then "Prospective/New Member"
               else "Never got involved") := by
        rw [assignStatusRow_eq tsjOf d row et it s dj h2 h5]
        simp only [assign_status, hl]
        exact assignStatusCore_none_eq _ et it het
      have hcnt' : ∀ p ∈ d, 1 ≤ rest.countP (fun r => decide (r[2]? = some (Value.vStr p.1))) := by
        intro p hp
        have h1 := hcnt p hp
        rw [List.countP_cons] at h1
        have hpred : ¬ (row[2]? = some (Value.vStr p.1)) := by
          intro heq
          rw [h2] at heq
          have hps : p.1 = s := by
            have := Option.some.inj heq
            exact (Value.vStr.inj this.symm)
          exact absurd ((dictLookup_isSome_iff d s).mpr ⟨p, hp, hps⟩) (by simp [hl])
        simpa [hpred] using h1
      obtain ⟨us', cs', hrec, hlen', hcorr⟩ :=
        ih (idx + 1) d hinv (fun r hr => hrows r (by simp [hr])) hcnt'
      refine ⟨(Value.vStr _ :: (row.drop 5).take 7) :: us', cs',
        mobilizeLoop_cons_miss tsjOf et it row rest idx d s _ h2 hl hst _ _ _ hrec,
        by simp [hlen'], ?_⟩
      intro k hk hk2
      cases k with
      | zero => exact Or.inr ⟨_, rfl⟩
      | succ k' => simpa using hcorr k' (by simpa using hk) (by simpa using hk2)
    | some m =>
      obtain ⟨hme, hdsls⟩ := hinv (s, m) (dictLookup_some_mem hl)
      obtain ⟨dv, hdv⟩ := Option.ne_none_iff_exists.mp hdsls
      have h2' : (row.take 6 ++ updateValues m ++ row.drop 12)[2]? = some (Value.vStr s) := by
        rw [row1_getElem_low row m 2 hlen12 (by omega)]; exact h2
      have h5' : (row.take 6 ++ updateValues m ++ row.drop 12)[5]? = some (Value.vStr dj) := by
        rw [row1_getElem_low row m 5 hlen12 (by omega)]; exact h5
      have hst : assignStatusRow tsjOf d (row.take 6 ++ updateValues m ++ row.drop 12) et it =
          .ok (specStatusString (specAssignStatus (tsjOf dj) m.total_signups dv et it)) := by
        rw [assignStatusRow_eq tsjOf d _ et it s dj h2' h5']
        simp only [assign_status, hl]
        rw [← hdv]
        exact assignStatusCore_some_eq _ _ _ et it
      have h16v : (16 : Nat) < row.length := by omega
      have h16 : row[16]? = some (row.get ⟨16, h16v⟩) := by
        simp [List.getElem?_eq_getElem h16v]
      set st := specStatusString (specAssignStatus (tsjOf dj) m.total_signups dv et it) with hstdef
      set row2 := (row.take 6 ++ updateValues m ++ row.drop 12).set 4 (Value.vStr st) with hrow2
      set v16 := row.get ⟨16, h16v⟩ with hv16
      have h16' : row2[16]? = some v16 := by
        rw [hrow2, List.getElem?_set_ne (by omega), row1_getElem_high row m 16 hlen12 (by omega)]
        exact h16
      have h17' : row2[17]? = some (Value.vStr u17) := by
        rw [hrow2, List.getElem?_set_ne (by omega), row1_getElem_high row m 17 hlen12 (by omega)]
        exact h17
      have hmc := markClaimCell_eq row2 idx 4 v16 u17 h16' h17'
      have hcnt' : ∀ p ∈ dictErase d s,
          1 ≤ rest.countP (fun r => decide (r[2]? = some (Value.vStr p.1))) := by
        intro p hp
        obtain ⟨hpd, hpk⟩ := mem_dictErase hp
        have h1 := hcnt p hpd
        rw [List.countP_cons] at h1
        have hpred : ¬ (row[2]? = some (Value.vStr p.1)) := by
          intro heq
          rw [h2] at heq
          exact hpk (Value.vStr.inj (Option.some.inj heq).symm)
        simpa [hpred] using h1
      have hinv' : ∀ p ∈ dictErase d s,
          p.2.email = p.1 ∧ p.2.days_since_last_signup ≠ none :=
        fun p hp => hinv p (mem_dictErase hp).1
      obtain ⟨us', cs', hrec, hlen', hcorr⟩ :=
        ih (idx + 1) (dictErase d s) hinv' (fun r hr => hrows r (by simp [hr])) hcnt'
      refine ⟨((row2.drop 4).take 8) :: us', consOptNat (if v16 = Value.vStr "National Email List" ∧ u17.length = 0 then some (idx + 4) else none) cs',
        ?_, by simp [hlen'], ?_⟩
      · exact mobilizeLoop_cons_hit tsjOf et it row rest idx d s st m _ h2 hl hlen12 hst hmc _ _ _ hrec
      · intro k hk hk2
        cases k with
        | zero =>
          exact Or.inl ⟨m, st, by rw [hme]; exact h2, rfl⟩
        | succ k' => simpa using hcorr k' (by simpa using hk) (by simpa using hk2)

/-- C4.  When every incoming mobilize record's email matches exactly one
destination row (all rows well-formed, the records carrying an actual
days-since-last-signup value, a non-negative event threshold), the merge
consumes the whole dict — zero records are appended — and emits exactly
one update row per destination row, in destination order: the k-th
update row is derived from the k-th destination row (its hit shape or
miss shape, `updOfRow`). -/
theorem claim_C4_full_match (tsjOf : String → Int) (et it : Int)
    (I : List MobRow) (hq : List (List Value)) (het : 0 ≤ et)
    (hI : ∀ m ∈ I, m.days_since_last_signup ≠ none)
    (hrows : ∀ row ∈ hq, 18 ≤ row.length ∧ (∃ s, row[2]? = some (Value.vStr s)) ∧
      (∃ t, row[5]? = some (Value.vStr t)) ∧ (∃ u, row[17]? = some (Value.vStr u)))
    (hmatch : ∀ m ∈ I,
      hq.countP (fun row => decide (row[2]? = some (Value.vStr m.email))) = 1) :
    ∃ us cs, mobilize_updates tsjOf et it (buildDict I) hq = .ok (us, cs, []) ∧
      us.length = hq.length ∧
      ∀ k (hk : k < hq.length) (hk2 : k < us.length),
        updOfRow (hq.get ⟨k, hk⟩) (us.get ⟨k, hk2⟩) := by
  have hinv : ∀ p ∈ buildDict I, p.2.email = p.1 ∧ p.2.days_since_last_signup ≠ none :=
    mem_buildDict_pred _ I (fun m hm => ⟨rfl, hI m hm⟩)
  have hcnt : ∀ p ∈ buildDict I,
      1 ≤ hq.countP (fun row => decide (row[2]? = some (Value.vStr p.1))) :=
    mem_buildDict_pred _ I (fun m hm => le_of_eq (hmatch m hm).symm)
  obtain ⟨us, cs, hloop, hlen, hcorr⟩ :=
    mobilizeLoop_complete tsjOf et it het hq 0 (buildDict I) hinv hrows hcnt
  refine ⟨us, cs, ?_, hlen, hcorr⟩
  simp only [mobilize_updates, hloop, Bind.bind, Except.bind, Pure.pure, Except.pure,
    List.map_nil]

theorem claim_C4_full_match_witness :
    (0:Int) ≤ 1 ∧
    (∀ m ∈ [sampleMobRow "a@x.com"], m.days_since_last_signup ≠ none) ∧
    (∀ row ∈ [sampleHqRow "a@x.com" "HOT LEAD" "01/02/2024 10:00:00" "Interest Form" ""],
      18 ≤ row.length ∧ (∃ s, row[2]? = some (Value.vStr s)) ∧
      (∃ t, row[5]? = some (Value.vStr t)) ∧ (∃ u, row[17]? = some (Value.vStr u))) ∧
    (∀ m ∈ [sampleMobRow "a@x.com"],
      ([sampleHqRow "a@x.com" "HOT LEAD" "01/02/2024 10:00:00" "Interest Form" ""]).countP
        (fun row => decide (row[2]? = some (Value.vStr m.email))) = 1) ∧
    (∃ us cs, mobilize_updates (fun _ => (8640000000000 : Int)) 1 30
        (buildDict [sampleMobRow "a@x.com"])
        [sampleHqRow "a@x.com" "HOT LEAD" "01/02/2024 10:00:00" "Interest Form" ""] =
          .ok (us, cs, []) ∧
      us.length = [sampleHqRow "a@x.com" "HOT LEAD" "01/02/2024 10:00:00" "Interest Form" ""].length ∧
      ∀ k (hk : k < [sampleHqRow "a@x.com" "HOT LEAD" "01/02/2024 10:00:00" "Interest Form" ""].length)
        (hk2 : k < us.length),
        updOfRow ([sampleHqRow "a@x.com" "HOT LEAD" "01/02/2024 10:00:00" "Interest Form" ""].get ⟨k, hk⟩)
          (us.get ⟨k, hk2⟩)) :=
  ⟨by norm_num, by decide,
   by
     intro row hr
     simp only [List.mem_singleton] at hr
     subst hr
     exact ⟨by decide, ⟨"a@x.com", rfl⟩, ⟨"01/02/2024 10:00:00", rfl⟩, ⟨"", rfl⟩⟩,
   by decide,
   claim_C4_full_match (fun _ => (8640000000000 : Int)) 1 30 _ _ (by norm_num)
     (by decide)
     (by
       intro row hr
       simp only [List.mem_singleton] at hr
       subst hr
       exact ⟨by decide, ⟨"a@x.com", rfl⟩, ⟨"01/02/2024 10:00:00", rfl⟩, ⟨"", rfl⟩⟩)
     (by decide)⟩

/-- C7, counterexample to the claim as stated.  In sheets_sync's
`hq_updates` a destination row with no incoming match does NOT get an
update row carrying its stored values: with an empty incoming dict, the
destination row storing `Zine club` in its display column (index 12,
column M — the very column the update block is written back to) gets the
update row `[""]`, overwriting the stored value with the empty string. -/
theorem claim_C7_counterexample :
    sheets_hq_updates [] [sampleSheetRow "Email" "", sampleSheetRow "c@x.com" "Zine club"] =
      .ok ([[""]], [], []) ∧
    (sampleSheetRow "c@x.com" "Zine club")[12]? = some "Zine club" ∧
    ("" : String) ≠ "Zine club" :=
  ⟨rfl, rfl, by decide⟩

/-- C7 as amended.  On a miss, the interest script's `hq_updates` emits
the destination's stored display cell (index 12) unchanged, and
`mobilize_updates` emits the stored `F..L` cells with only the status
recomputed; sheets_sync's `hq_updates`, however, emits the empty string
for every unmatched destination row, clearing that row's stored display
value instead of carrying it. -/
theorem claim_C7_on_miss_frame :
    (∀ (sd : List (String × List String)) (row : List String) (e v : String),
      row[2]? = some e → dictLookup sd e = none → row[12]? = some v →
      interestLoop sd [row] = .ok ([[v]], sd)) ∧
    (∀ (sd : List (String × List String)) (row : List String) (e : String) (idx : Nat),
      row[2]? = some e → dictLookup sd e = none →
      sheetsLoop sd [row] idx = .ok ([[""]], [], sd)) ∧
    (∀ (tsjOf : String → Int) (et it : Int) (d : List (String × MobRow))
       (row : List Value) (s dj : String) (idx : Nat),
      row[2]? = some (Value.vStr s) → dictLookup d s = none →
      row[5]? = some (Value.vStr dj) → 0 ≤ et →
      ∃ st, mobilizeLoop tsjOf et it [row] idx d =
        .ok ([Value.vStr st :: (row.drop 5).take 7], [], d)) := by
  refine ⟨?_, ?_, ?_⟩
  · intro sd row e v h2 hl h12
    simp [interestLoop, pyGet, h2, hl, h12, Bind.bind, Except.bind, Pure.pure, Except.pure]
  · intro sd row e idx h2 hl
    simp [sheetsLoop, pyGet, h2, hl, Bind.bind, Except.bind, Pure.pure, Except.pure]
  · intro tsjOf et it d row s dj idx h2 hl h5 het
    have hst : assignStatusRow tsjOf d row et it =
        .ok (if tsjOf dj ≤ sevendays then "HOT LEAD"
             else if tsjOf dj ≤ sixtydays then "Prospective/New Member"
             else "Never got involved") := by
      rw [assignStatusRow_eq tsjOf d row et it s dj h2 h5]
      simp only [assign_status, hl]
      exact assignStatusCore_none_eq _ et it het
    exact ⟨_, mobilizeLoop_cons_miss tsjOf et it row [] idx d s _ h2 hl hst _ _ _
      (mobilizeLoop_nil tsjOf et it (idx + 1) d)⟩

theorem claim_C7_on_miss_frame_witness :
    ((sampleSheetRow "c@x.com" "Zine club")[2]? = some "c@x.com" ∧
     dictLookup ([] : List (String × List String)) "c@x.com" = none ∧
     (sampleSheetRow "c@x.com" "Zine club")[12]? = some "Zine club" ∧
     interestLoop [] [sampleSheetRow "c@x.com" "Zine club"] = .ok ([["Zine club"]], []) ∧
     sheetsLoop [] [sampleSheetRow "c@x.com" "Zine club"] 0 = .ok ([[""]], [], [])) ∧
    ((sampleHqRow "c@x.com" "HOT LEAD" "01/02/2024 10:00:00" "Interest Form" "")[2]? =
       some (Value.vStr "c@x.com") ∧
     (0:Int) ≤ 1 ∧
     ∃ st, mobilizeLoop (fun _ => (8640000000000 : Int)) 1 30
         [sampleHqRow "c@x.com" "HOT LEAD" "01/02/2024 10:00:00" "Interest Form" ""] 0 [] =
       .ok ([Value.vStr st ::
              ((sampleHqRow "c@x.com" "HOT LEAD" "01/02/2024 10:00:00" "Interest Form" "").drop 5).take 7],
            [], [])) :=
  ⟨⟨rfl, rfl, rfl,
    claim_C7_on_miss_frame.1 [] _ "c@x.com" "Zine club" rfl rfl rfl,
    claim_C7_on_miss_frame.2.1 [] _ "c@x.com" 0 rfl rfl⟩,
   ⟨rfl, by norm_num,
    claim_C7_on_miss_frame.2.2 (fun _ => (8640000000000 : Int)) 1 30 [] _ "c@x.com"
      "01/02/2024 10:00:00" 0 rfl rfl rfl (by norm_num)⟩⟩

theorem getElem?_some_getD {α : Type} (l : List α) (d : α) (i : Nat) (h : i < l.length) :
    l[i]? = some (l.getD i d) := by
  rw [List.getD_eq_getElem l d h, List.getElem?_eq_getElem h]

theorem getD_set_self {α : Type} (l : List α) (i : Nat) (v d : α) (h : i < l.length) :
    (l.set i v).getD i d = v := by
  rw [List.getD_eq_getElem?_getD, List.getElem?_set_self, Option.getD_some]
  exact h

theorem getD_set_ne {α : Type} (l : List α) (i j : Nat) (v d : α) (h : i ≠ j) :
    (l.set i v).getD j d = l.getD j d := by
  rw [List.getD_eq_getElem?_getD, List.getElem?_set_ne h, ← List.getD_eq_getElem?_getD]

theorem str_length_pos (s : String) (h : s ≠ "") : 0 < s.length := by
  cases hq : s.length with
  | zero =>
    exfalso
    apply h
    have hd : s.data = [] := List.length_eq_zero.mp hq
    cases s
    simp_all
  | succ k => omega

theorem specJoinColsGo_congr (hdr : List String) :
    ∀ (n : Nat) (r1 r : List String) (i : Nat), r1.length = r.length →
    (∀ j, i ≤ j → r1.getD j "" = r.getD j "") →
    specJoinColsGo hdr r1 n i = specJoinColsGo hdr r n i := by
  intro n
  induction n with
  | zero => intro r1 r i _ _; rfl
  | succ n ih =>
    intro r1 r i hlen hsame
    simp only [specJoinColsGo, hlen, hsame i (le_refl i)]
    by_cases hi : i < r.length
    · simp only [if_pos hi]
      rw [ih r1 r (i + 1) hlen (fun j hj => hsame j (by omega))]
    · simp only [if_neg hi]

theorem specJoinCols_step_empty (hdr r : List String) (i : Nat)
    (hi : i < r.length) (hv : r.getD i "" = "") :
    specJoinCols hdr r i = specJoinCols hdr r (i + 1) := by
  unfold specJoinCols
  have hfuel : r.length - i = (r.length - (i + 1)) + 1 := by omega
  rw [hfuel]
  rw [List.getD_eq_getElem?_getD] at hv
  simp [specJoinColsGo, if_pos hi, hv, List.getD_eq_getElem?_getD]

theorem specJoinCols_step (hdr r : List String) (i : Nat)
    (hi : i < r.length) (hv : r.getD i "" ≠ "") :
    specJoinCols hdr r i =
      (hdr.getD i "").take 20 ++ ": " ++ r.getD i "" ++ "\n" ++ specJoinCols hdr r (i + 1) := by
  unfold specJoinCols
  have hfuel : r.length - i = (r.length - (i + 1)) + 1 := by omega
  rw [hfuel]
  rw [List.getD_eq_getElem?_getD] at hv
  simp [specJoinColsGo, if_pos hi, hv, List.getD_eq_getElem?_getD]

theorem specJoinCols_end (hdr r : List String) (i : Nat) (hi : ¬ i < r.length) :
    specJoinCols hdr r i = "" := by
  unfold specJoinCols
  have hfuel : r.length - i = 0 := by omega
  rw [hfuel]
  rfl

theorem sheetsConcatGo_spec (ws : List (List String)) (hdr : List String)
    (hws : ws[0]? = some hdr) :
    ∀ (n : Nat) (r : List String) (i : Nat), n = r.length - i → 8 ≤ i →
    7 < r.length → r.length ≤ hdr.length →
    ∃ r', sheetsConcatGo ws n r i = pure r' ∧ r'.length = r.length ∧
      r'[7]? = some (r.getD 7 "" ++ specJoinCols hdr r i) ∧
      ∀ j, j ≠ 7 → r'[j]? = r[j]? := by
  intro n
  induction n with
  | zero =>
    intro r i hn h8 h7 hlen
    have hi : ¬ i < r.length := by omega
    refine ⟨r, rfl, rfl, ?_, fun j _ => rfl⟩
    rw [specJoinCols_end hdr r i hi, getElem?_some_getD r "" 7 h7]
    simp
  | succ n ih =>
    intro r i hn h8 h7 hlen
    have hi : i < r.length := by omega
    have hi7 : ¬ i = 7 := by omega
    have hv : r[i]? = some (r.getD i "") := getElem?_some_getD r "" i hi
    by_cases hev : r.getD i "" = ""
    · obtain ⟨r', hgo, hlen', h7', hother⟩ := ih r (i + 1) (by omega) (by omega) h7 hlen
      refine ⟨r', ?_, hlen', ?_, hother⟩
      · simp only [sheetsConcatGo, if_pos hi, pyGet, hv, Bind.bind, Except.bind, hev]
        simpa [hev] using hgo
      · rw [h7', specJoinCols_step_empty hdr r i hi hev]
    · have hpos : 0 < (r.getD i "").length := str_length_pos _ hev
      have hhl : hdr[i]? = some (hdr.getD i "") := getElem?_some_getD hdr "" i (by omega)
      have hc7 : r[7]? = some (r.getD 7 "") := getElem?_some_getD r "" 7 h7
      have hlen1 : (r.set 7 (r.getD 7 "" ++ (hdr.getD i "").take 20 ++ ": " ++ r.getD i "" ++ "\n")).length = r.length :=
        List.length_set r 7 _
      obtain ⟨r', hgo, hlen', h7', hother⟩ := ih
        (r.set 7 (r.getD 7 "" ++ (hdr.getD i "").take 20 ++ ": " ++ r.getD i "" ++ "\n"))
        (i + 1) (by rw [hlen1]; omega) (by omega) (by rw [hlen1]; omega) (by rw [hlen1]; omega)
      refine ⟨r', ?_, by rw [hlen', hlen1], ?_, ?_⟩
      · simp only [sheetsConcatGo, if_pos hi, pyGet, hv, hws, hhl, hc7,
          Bind.bind, Except.bind, hpos, hi7, if_pos hpos, and_false, if_false, if_true,
          false_and, if_neg (by simp [hi7] : ¬ (0 < (r.getD i "").length ∧ i = 7))]
        exact hgo
      · rw [h7']
        have hg1 : (r.set 7 (r.getD 7 "" ++ (hdr.getD i "").take 20 ++ ": " ++ r.getD i "" ++ "\n")).getD 7 "" =
            r.getD 7 "" ++ (hdr.getD i "").take 20 ++ ": " ++ r.getD i "" ++ "\n" :=
          getD_set_self r 7 _ "" h7
        have hcongr : specJoinCols hdr
            (r.set 7 (r.getD 7 "" ++ (hdr.getD i "").take 20 ++ ": " ++ r.getD i "" ++ "\n")) (i + 1) =
            specJoinCols hdr r (i + 1) := by
          unfold specJoinCols
          rw [hlen1]
          exact specJoinColsGo_congr hdr _ _ r (i + 1) hlen1
            (fun j hj => getD_set_ne r 7 j _ "" (by omega))
        rw [hg1]
        rw [hcongr]
        rw [specJoinCols_step hdr r i hi hev]
        simp only [String.append_assoc]
      · intro j hj
        rw [hother j hj, List.getElem?_set_ne (by omega : (7:Nat) ≠ j)]

theorem sheetsConcatLoop_spec (ws : List (List String)) (hdr : List String)
    (hws : ws[0]? = some hdr) (r : List String)
    (h7 : 7 < r.length) (hlen : r.length ≤ hdr.length) :
    ∃ r', sheetsConcatLoop ws r 7 = pure r' ∧ r'.length = r.length ∧
      r'[7]? = some (specJoinCols hdr r 7) ∧
      ∀ j, j ≠ 7 → r'[j]? = r[j]? := by
  have hfuel : r.length - 7 = (r.length - 8) + 1 := by omega
  have hv : r[7]? = some (r.getD 7 "") := getElem?_some_getD r "" 7 h7
  unfold sheetsConcatLoop
  rw [hfuel]
  by_cases hev : r.getD 7 "" = ""
  · obtain ⟨r', hgo, hlen', h7', hother⟩ :=
      sheetsConcatGo_spec ws hdr hws (r.length - 8) r 8 rfl (le_refl 8) h7 hlen
    refine ⟨r', ?_, hlen', ?_, hother⟩
    · simp only [sheetsConcatGo, if_pos h7, pyGet, hv, Bind.bind, Except.bind, hev]
      simpa [hev] using hgo
    · rw [h7', specJoinCols_step_empty hdr r 7 h7 hev, hev]
      simp
  · have hpos : 0 < (r.getD 7 "").length := str_length_pos _ hev
    have hhl : hdr[7]? = some (hdr.getD 7 "") := getElem?_some_getD hdr "" 7 (by omega)
    have hlen1 : (r.set 7 ((hdr.getD 7 "").take 20 ++ ": " ++ r.getD 7 "" ++ "\n")).length = r.length :=
      List.length_set r 7 _
    obtain ⟨r', hgo, hlen', h7', hother⟩ := sheetsConcatGo_spec ws hdr hws (r.length - 8)
      (r.set 7 ((hdr.getD 7 "").take 20 ++ ": " ++ r.getD 7 "" ++ "\n")) 8
      (by rw [hlen1]) (le_refl 8) (by rw [hlen1]; omega) (by rw [hlen1]; omega)
    refine ⟨r', ?_, by rw [hlen', hlen1], ?_, ?_⟩
    · simp only [sheetsConcatGo, if_pos h7, pyGet, hv, hws, hhl,
        Bind.bind, Except.bind]
      rw [if_pos (⟨hpos, trivial⟩ : 0 < (r.getD 7 "").length ∧ True)]
      exact hgo
    · rw [h7']
      have hg1 : (r.set 7 ((hdr.getD 7 "").take 20 ++ ": " ++ r.getD 7 "" ++ "\n")).getD 7 "" =
          (hdr.getD 7 "").take 20 ++ ": " ++ r.getD 7 "" ++ "\n" :=
        getD_set_self r 7 _ "" h7
      have hcongr : specJoinCols hdr
          (r.set 7 ((hdr.getD 7 "").take 20 ++ ": " ++ r.getD 7 "" ++ "\n")) 8 =
          specJoinCols hdr r 8 := by
        unfold specJoinCols
        rw [hlen1]
        exact specJoinColsGo_congr hdr _ _ r 8 hlen1
          (fun j hj => getD_set_ne r 7 j _ "" (by omega))
      rw [hg1, hcongr, specJoinCols_step hdr r 7 h7 hev]
    · intro j hj
      rw [hother j hj, List.getElem?_set_ne (by omega : (7:Nat) ≠ j)]

/-- C6.  Cell-size bound: for a stored row with more than 13 populated
cells (the fixed count the code tests, over the whole aggregated
record), `construct_update_dictionary`'s second phase substitutes the
fixed too-much-data placeholder for the display cell; a row at or below
the count gets the normal labelled concatenation (`specJoinCols`). -/
theorem claim_C6_cell_size_gate (ws : List (List String)) (hdr r : List String)
    (hws : ws[0]? = some hdr) (h7 : 7 < r.length) (hlen : r.length ≤ hdr.length) :
    ∃ r', sheetsPhase2 ws r = .ok r' ∧ r'.length = 8 ∧
      r'[7]? = some (if 13 < r.countP (fun s => decide (0 < s.length)) then tooMuchMsg
                     else specJoinCols hdr r 7) := by
  by_cases hcnt : 13 < r.countP (fun s => decide (0 < s.length))
  · refine ⟨(r.set 7 tooMuchMsg).take 8, ?_, ?_, ?_⟩
    · simp only [sheetsPhase2, if_pos hcnt, pySet, if_pos h7,
        Bind.bind, Except.bind, Pure.pure, Except.pure]
    · simp [List.length_take, List.length_set]
      omega
    · rw [List.getElem?_take_of_lt (by omega : (7:Nat) < 8),
        List.getElem?_set_self (by omega), if_pos hcnt]
  · obtain ⟨r', hloop, hlen', h7', _⟩ := sheetsConcatLoop_spec ws hdr hws r h7 hlen
    refine ⟨r'.take 8, ?_, ?_, ?_⟩
    · simp only [sheetsPhase2, if_neg hcnt, hloop,
        Bind.bind, Except.bind, Pure.pure, Except.pure]
    · simp [List.length_take, hlen']
      omega
    · rw [List.getElem?_take_of_lt (by omega : (7:Nat) < 8), h7', if_neg hcnt]

theorem claim_C6_cell_size_gate_witness :
    ([["h0", "h1", "h2", "h3", "h4", "h5", "h6", "h7", "h8", "h9", "h10", "h11",
       "h12", "h13", "h14", "h15", "h16", "h17"]] : List (List String))[0]? =
      some ["h0", "h1", "h2", "h3", "h4", "h5", "h6", "h7", "h8", "h9", "h10", "h11",
       "h12", "h13", "h14", "h15", "h16", "h17"] ∧
    7 < (["a", "b", "c", "d", "e", "f", "g", "h", "i", "j", "k", "l", "m", "n",
          "o", "p", "q", "r"] : List String).length ∧
    (["a", "b", "c", "d", "e", "f", "g", "h", "i", "j", "k", "l", "m", "n",
      "o", "p", "q", "r"] : List String).length ≤
      (["h0", "h1", "h2", "h3", "h4", "h5", "h6", "h7", "h8", "h9", "h10", "h11",
        "h12", "h13", "h14", "h15", "h16", "h17"] : List String).length ∧
    (∃ r', sheetsPhase2
        [["h0", "h1", "h2", "h3", "h4", "h5", "h6", "h7", "h8", "h9", "h10", "h11",
          "h12", "h13", "h14", "h15", "h16", "h17"]]
        ["a", "b", "c", "d", "e", "f", "g", "h", "i", "j", "k", "l", "m", "n",
         "o", "p", "q", "r"] = .ok r' ∧ r'.length = 8 ∧
      r'[7]? = some (if 13 < (["a", "b", "c", "d", "e", "f", "g", "h", "i", "j",
          "k", "l", "m", "n", "o", "p", "q", "r"] : List String).countP
            (fun s => decide (0 < s.length)) then tooMuchMsg
          else specJoinCols
            ["h0", "h1", "h2", "h3", "h4", "h5", "h6", "h7", "h8", "h9", "h10", "h11",
             "h12", "h13", "h14", "h15", "h16", "h17"]
            ["a", "b", "c", "d", "e", "f", "g", "h", "i", "j", "k", "l", "m", "n",
             "o", "p", "q", "r"] 7)) :=
  ⟨rfl, by decide, by decide,
   claim_C6_cell_size_gate _ _ _ rfl (by decide) (by decide)⟩

/-- C5.  The free-text concatenation.  First conjunct: the claim fails in
the interest script — two form rows sharing one email do NOT get their
trailing fields concatenated; the duplicate branch of
`construct_update_dictionary` dies on the `signup_columns['zipcode']`
KeyError (the key is `'Zipcode'`), the handler replaces the stored row,
and the first row's non-empty trailing field (`I love organizing`) is
absent from the final display cell, which holds only the last row's
data.  Second conjunct: in the sheets_sync rewrite of the same function
the concatenation behaves as claimed — the display cell of each stored
row equals the join, in source column order, of `label[:20]: value`
lines over its non-empty trailing columns (`specJoinCols`), every other
cell untouched. -/
theorem claim_C5_concat_order :
    (interestConstruct [interestHeaderRow, interestRowA, interestRowB] =
       .ok [("dup@x.com",
             ["1/2 11:00", "Ann", "A", "dup@x.com", "555-0102", "02139", "Skills: Design\n"])] ∧
     interestRowA[6]? = some "I love organizing") ∧
    (∀ (ws : List (List String)) (hdr r : List String), ws[0]? = some hdr →
      7 < r.length → r.length ≤ hdr.length →
      ∃ r', sheetsConcatLoop ws r 7 = pure r' ∧ r'.length = r.length ∧
        r'[7]? = some (specJoinCols hdr r 7) ∧ ∀ j, j ≠ 7 → r'[j]? = r[j]?) :=
  ⟨⟨rfl, rfl⟩, fun ws hdr r hws h7 hlen => sheetsConcatLoop_spec ws hdr hws r h7 hlen⟩

theorem claim_C5_concat_order_witness :
    ([["A", "B", "C", "D", "E", "F", "G", "H", "I"]] : List (List String))[0]? =
      some ["A", "B", "C", "D", "E", "F", "G", "H", "I"] ∧
    7 < (["t", "f", "l", "e@x", "p", "z", "b", "data1", "data2"] : List String).length ∧
    (["t", "f", "l", "e@x", "p", "z", "b", "data1", "data2"] : List String).length ≤
      (["A", "B", "C", "D", "E", "F", "G", "H", "I"] : List String).length ∧
    (∃ r', sheetsConcatLoop [["A", "B", "C", "D", "E", "F", "G", "H", "I"]]
        ["t", "f", "l", "e@x", "p", "z", "b", "data1", "data2"] 7 = pure r' ∧
      r'.length = (["t", "f", "l", "e@x", "p", "z", "b", "data1", "data2"] : List String).length ∧
      r'[7]? = some (specJoinCols ["A", "B", "C", "D", "E", "F", "G", "H", "I"]
        ["t", "f", "l", "e@x", "p", "z", "b", "data1", "data2"] 7) ∧
      ∀ j, j ≠ 7 → r'[j]? = (["t", "f", "l", "e@x", "p", "z", "b", "data1", "data2"] :
        List String)[j]?) :=
  ⟨rfl, by decide, by decide,
   claim_C5_concat_order.2 _ _ _ rfl (by decide) (by decide)⟩
